import Mathlib

/-!
Verification of the rhubarb-lipsync core: a shallow embedding of
`rhubarb_lipsync/rhubarb/rhubarb_command_handling.py` (the status-protocol
parser `RhubarbParser` and the process driver `RhubarbCommandWrapper`) and of
`rhubarb_lipsync/rhubarb/cue_processor.py` (the cue optimization pipeline
`CueProcessor`).

Conventions of the embedding:
- Python exceptions are modelled by `PyError`; fallible code returns
  `Except PyError` or the driver-step type `StepResult` (which additionally
  has a `blocks` outcome for a read that blocks on I/O).
- Python `float` values carried through JSON are modelled exactly: a JSON
  number is kept as an integer numerator and a natural denominator, and the
  cue pipeline works over `ℚ`.
- The external process (handle, pipes, exit code) is modelled by the `Proc`
  state: `pollResult` is what `Popen.poll()` currently returns,
  `pendingLines` are the complete stderr lines currently available to a line
  read, `atEof` says the stderr pipe is closed, `finalStdout`/`finalStderr`
  are what `communicate()` would still deliver, and `commTimesOut` says
  whether `communicate(timeout=1)` raises `TimeoutExpired`.
-/

/-- Python exceptions that the embedded code can raise. -/
inductive PyError where
  | assertionError
  | runtimeError (msg : String)
  | keyError (key : String)
  | typeError
  | valueError
  | attributeError
deriving DecidableEq

/-- String append with an empty left operand is the identity; used to reason
about `self.stderr = ""` followed by `self.stderr += line`. -/
theorem empty_str_append (s : String) : "" ++ s = s := by cases s; rfl

/-- Model of Python `str.splitlines`, restricted to the line separators
`\n`, `\r` and `\r\n` (the ones produced by the rhubarb binary): a trailing
separator does not produce a final empty line. First argument is the
reversed accumulator of the current line. -/
def splitlinesChars : List Char → List Char → List String
  | acc, [] => if acc.isEmpty then [] else [String.mk acc.reverse]
  | acc, '\r' :: '\n' :: rest => String.mk acc.reverse :: splitlinesChars [] rest
  | acc, '\n' :: rest => String.mk acc.reverse :: splitlinesChars [] rest
  | acc, '\r' :: rest => String.mk acc.reverse :: splitlinesChars [] rest
  | acc, c :: rest => splitlinesChars (c :: acc) rest

/-- Python `s.splitlines()`. -/
def pySplitlines (s : String) : List String := splitlinesChars [] s.data

/-- Python `int()` truncation toward zero of an exact rational. -/
def py_int (q : ℚ) : ℤ := if 0 ≤ q then ⌊q⌋ else -⌊-q⌋

/-- Python `s * n` string repetition. -/
def pyRepeat (s : String) (n : Nat) : String :=
  String.mk (List.flatten (List.replicate n s.data))

/-- Helper for `int(str)`: digits of a decimal literal. -/
def digitsToNat : List Char → Option Nat
  | [] => none
  | cs => cs.foldl (fun acc c => match acc with
      | none => none
      | some a => if c.isDigit then some (a * 10 + (c.toNat - 48)) else none)
      (some 0)

/-- Python `int(s)` on a string: optional surrounding whitespace, optional
sign, then decimal digits; anything else raises `ValueError`. -/
def pyIntOfString (s : String) : Except PyError Int :=
  let cs := (s.data.dropWhile (fun c => c = ' ')).reverse.dropWhile (fun c => c = ' ') |>.reverse
  match cs with
  | '-' :: rest => match digitsToNat rest with
      | some n => .ok (-(n : Int))
      | none => .error .valueError
  | '+' :: rest => match digitsToNat rest with
      | some n => .ok (n : Int)
      | none => .error .valueError
  | rest => match digitsToNat rest with
      | some n => .ok (n : Int)
      | none => .error .valueError

/-- JSON values as produced by Python `json.loads`. A number is kept exact
as `numer / denom` (Python int and float are not distinguished; all claims
depend only on the numeric value). -/
inductive Json where
  | null
  | bool (b : Bool)
  | num (numer : Int) (denom : Nat)
  | str (s : String)
  | arr (elems : List Json)
  | obj (fields : List (String × Json))

/-- Exact rational value of a JSON number node (1 for non-numbers; only ever
used on `num`). -/
def Json.ratValue : Json → ℚ
  | .num n d => (n : ℚ) / (d : ℚ)
  | _ => 1

/-- Python truthiness of a JSON-decoded value (`if j:`). -/
def Json.truthy : Json → Bool
  | .null => false
  | .bool b => b
  | .num n _ => n != 0
  | .str s => s ≠ ""
  | .arr xs => !xs.isEmpty
  | .obj fs => !fs.isEmpty

/-- Python hashability of a JSON-decoded value (dicts and lists cannot be
dictionary keys). -/
def Json.pyHashable : Json → Bool
  | .arr _ => false
  | .obj _ => false
  | _ => true

/-- Python value equality between JSON-decoded values (used for dictionary
keys; numbers compare by value, e.g. `1 == 1.0`). -/
def Json.pyEq : Json → Json → Bool
  | .null, .null => true
  | .bool a, .bool b => a == b
  | .num n₁ d₁, .num n₂ d₂ => n₁ * (d₂ : Int) == n₂ * (d₁ : Int)
  | .str a, .str b => a == b
  | _, _ => false

/-- Lookup in a Python dict with string keys (association list; keys are
unique by construction). -/
def assocLookupStr : List (String × Json) → String → Option Json
  | [], _ => none
  | (k, v) :: rest, key => if k = key then some v else assocLookupStr rest key

/-- Lookup in a Python dict with arbitrary (hashable) keys. -/
def assocLookup : List (Json × Json) → Json → Option Json
  | [], _ => none
  | (k, v) :: rest, key => if k.pyEq key then some v else assocLookup rest key

/-- Insert into a Python dict with arbitrary keys: an existing key keeps its
position and takes the new value, a new key is appended. -/
def assocInsert : List (Json × Json) → Json → Json → List (Json × Json)
  | [], key, v => [(key, v)]
  | (k, v') :: rest, key, v =>
    if k.pyEq key then (k, v) :: rest else (k, v') :: assocInsert rest key v

/-- Python subscript `j[key]` with a string key: `KeyError` on a dict missing
the key, `TypeError` on any non-dict. -/
def pySubscript (j : Json) (key : String) : Except PyError Json :=
  match j with
  | .obj fields => match assocLookupStr fields key with
      | some v => .ok v
      | none => .error (.keyError key)
  | _ => .error .typeError

/-- Python `f"{v}"` of a JSON-decoded value, exact for strings (which is the
only case the claims exercise); other cases are a best-effort rendering of
Python `str()`. -/
def pyStr : Json → String
  | .str s => s
  | .null => "None"
  | .bool true => "True"
  | .bool false => "False"
  | .num n d => toString n ++ "/" ++ toString d
  | .arr _ => "[...]"
  | .obj _ => "\x7b...\x7d"

/-- JSON whitespace skipping. -/
def skipWs : List Char → List Char
  | c :: cs => if c == ' ' || c == '\t' || c == '\n' || c == '\r' then skipWs cs else c :: cs
  | [] => []

/-- Value of a hexadecimal digit. -/
def hexVal (c : Char) : Option Nat :=
  if c.isDigit then some (c.toNat - 48)
  else if 'a' ≤ c ∧ c ≤ 'f' then some (c.toNat - 87)
  else if 'A' ≤ c ∧ c ≤ 'F' then some (c.toNat - 55)
  else none

/-- JSON string escape characters. -/
def escChar : Char → Option Char
  | '\x22' => some '\x22'
  | '\\' => some '\\'
  | '/' => some '/'
  | 'b' => some (Char.ofNat 8)
  | 'f' => some (Char.ofNat 12)
  | 'n' => some '\n'
  | 'r' => some '\r'
  | 't' => some '\t'
  | _ => none

/-- Body of a JSON string after the opening quote: returns the decoded
characters and the input following the closing quote. Unescaped control
characters are rejected, as in Python strict mode. -/
def parseStringChars : List Char → Option (List Char × List Char)
  | '\x22' :: rest => some ([], rest)
  | '\\' :: 'u' :: a :: b :: c :: d :: rest =>
    (match hexVal a, hexVal b, hexVal c, hexVal d with
     | some ha, some hb, some hc, some hd =>
       (parseStringChars rest).map
         (fun p => (Char.ofNat (((ha * 16 + hb) * 16 + hc) * 16 + hd) :: p.1, p.2))
     | _, _, _, _ => none)
  | '\\' :: e :: rest =>
    (match escChar e with
     | some c => (parseStringChars rest).map (fun p => (c :: p.1, p.2))
     | none => none)
  | c :: rest => if c.toNat < 32 then none else (parseStringChars rest).map (fun p => (c :: p.1, p.2))
  | [] => none

/-- Longest prefix of decimal digits, as digit values. -/
def takeDigits : List Char → List Nat × List Char
  | c :: cs =>
    if c.isDigit then
      let (ds, r) := takeDigits cs
      ((c.toNat - 48) :: ds, r)
    else ([], c :: cs)
  | [] => ([], [])

/-- Natural number denoted by a list of digit values. -/
def natOfDigits (ds : List Nat) : Nat := ds.foldl (fun a d => a * 10 + d) 0

/-- JSON number literal: optional minus, integer part without leading zeros,
optional fraction, optional exponent. Returns the exact value as a pair
numerator/denominator together with the remaining input. -/
def parseNumber (cs : List Char) : Option ((Int × Nat) × List Char) :=
  let signed : Bool × List Char :=
    match cs with
    | '-' :: rest => (true, rest)
    | _ => (false, cs)
  let ipart : Option (Nat × List Char) :=
    match signed.2 with
    | '0' :: rest =>
      (match rest with
       | c :: _ => if c.isDigit then none else some (0, rest)
       | [] => some (0, rest))
    | c :: rest =>
      if c.isDigit then
        let (ds, r) := takeDigits rest
        some (natOfDigits ((c.toNat - 48) :: ds), r)
      else none
    | [] => none
  match ipart with
  | none => none
  | some (i0, cs2) =>
    let fpart : Option (Nat × Nat × List Char) :=
      match cs2 with
      | '.' :: rest =>
        (match takeDigits rest with
         | ([], _) => none
         | (ds, r) => some (natOfDigits ds, ds.length, r))
      | _ => some (0, 0, cs2)
    match fpart with
    | none => none
    | some (f, k, cs3) =>
      let epart : Option (Bool × Nat × List Char) :=
        match cs3 with
        | 'e' :: rest | 'E' :: rest =>
          (match rest with
           | '-' :: r1 =>
             (match takeDigits r1 with
              | ([], _) => none
              | (ds, r2) => some (true, natOfDigits ds, r2))
           | '+' :: r1 =>
             (match takeDigits r1 with
              | ([], _) => none
              | (ds, r2) => some (false, natOfDigits ds, r2))
           | _ =>
             (match takeDigits rest with
              | ([], _) => none
              | (ds, r2) => some (false, natOfDigits ds, r2)))
        | _ => some (false, 0, cs3)
      match epart with
      | none => none
      | some (eneg, e, cs4) =>
        let nbase : Nat := i0 * 10 ^ k + f
        let n : Int := if signed.1 then -(nbase : Int) else (nbase : Int)
        if eneg then some ((n, 10 ^ k * 10 ^ e), cs4)
        else some ((n * (10 : Int) ^ e, 10 ^ k), cs4)

/-- Building a Python dict member list front to back: a key whose duplicate
appears later keeps the front position but takes the later value. -/
def objCons (k : String) (v : Json) (fields : List (String × Json)) : List (String × Json) :=
  match assocLookupStr fields k with
  | some v' => (k, v') :: fields.filter (fun p => p.fst != k)
  | none => (k, v) :: fields

/-- Recursive-descent JSON value parser, fuelled to make the recursion
structural. An array or object continuation is parsed by re-entering the
parser on a reconstructed opener, so one function suffices. -/
def parseJson : Nat → List Char → Option (Json × List Char)
  | 0, _ => none
  | fuel + 1, cs =>
    match skipWs cs with
    | [] => none
    | 't' :: 'r' :: 'u' :: 'e' :: rest => some (.bool true, rest)
    | 'f' :: 'a' :: 'l' :: 's' :: 'e' :: rest => some (.bool false, rest)
    | 'n' :: 'u' :: 'l' :: 'l' :: rest => some (.null, rest)
    | '\x22' :: rest =>
      (match parseStringChars rest with
       | some (chars, r) => some (.str (String.mk chars), r)
       | none => none)
    | '[' :: rest =>
      (match skipWs rest with
       | ']' :: r => some (.arr [], r)
       | _ =>
         match parseJson fuel rest with
         | none => none
         | some (v, r1) =>
           match skipWs r1 with
           | ']' :: r2 => some (.arr [v], r2)
           | ',' :: r2 =>
             (match skipWs r2 with
              | ']' :: _ => none
              | _ =>
                match parseJson fuel ('[' :: r2) with
                | some (.arr vs, r3) => some (.arr (v :: vs), r3)
                | _ => none)
           | _ => none)
    | '\x7b' :: rest =>
      (match skipWs rest with
       | '\x7d' :: r => some (.obj [], r)
       | '\x22' :: r =>
         (match parseStringChars r with
          | none => none
          | some (kchars, r1) =>
            match skipWs r1 with
            | ':' :: r2 =>
              (match parseJson fuel r2 with
               | none => none
               | some (v, r3) =>
                 match skipWs r3 with
                 | '\x7d' :: r4 => some (.obj [(String.mk kchars, v)], r4)
                 | ',' :: r4 =>
                   (match skipWs r4 with
                    | '\x22' :: _ =>
                      (match parseJson fuel ('\x7b' :: r4) with
                       | some (.obj fields, r5) => some (.obj (objCons (String.mk kchars) v fields), r5)
                       | _ => none)
                    | _ => none)
                 | _ => none)
            | _ => none)
       | _ => none)
    | c :: rest =>
      if c == '-' || c.isDigit then
        match parseNumber (c :: rest) with
        | some ((n, d), r) => some (.num n d, r)
        | none => none
      else none

/-- Model of Python `json.loads` on a string: parse one JSON document with
surrounding whitespace; `none` models `json.JSONDecodeError`. -/
def json_loads (s : String) : Option Json :=
  match parseJson (s.data.length + 2) s.data with
  | some (v, rest) => if (skipWs rest).isEmpty then some v else none
  | none => none

example : json_loads ("\x7b\x22type\x22: \x22failure\x22, \x22reason\x22: \x22boom\x22\x7d")
    = some (.obj [("type", .str ("failure")), ("reason", .str ("boom"))]) := rfl

example : json_loads ("\x7b\x22type\x22: \x22progress\x22, \x22value\x22: 0.17\x7d")
    = some (.obj [("type", .str ("progress")), ("value", .num 17 100)]) := rfl

example : json_loads ("\x7b\x7d") = some (.obj []) := rfl
example : json_loads ("") = none := rfl
example : json_loads (" [1, 2.5, -3e2, \x22a\\nb\x22, true, null] ")
    = some (.arr [.num 1 1, .num 25 10, .num (-3 * 10 ^ 2) 1, .str ("a\nb"), .bool true, .null]) := rfl
example : json_loads ("[1,]") = none := rfl
example : json_loads ("\x7b\x22a\x22: 1, \x22a\x22: 2\x7d") = some (.obj [("a", .num 2 1)]) := rfl
example : json_loads ("05") = none := rfl
example : json_loads ("1 2") = none := rfl

namespace RhubarbParser

/-- Embedding of `RhubarbParser.parse_status_info_line`: an empty line is
falsy and yields `{}`; otherwise the line is `json.loads`-parsed and a
`JSONDecodeError` is caught, logged and turned into `{}`. -/
def parse_status_info_line (stderr_line : String) : Json :=
  if stderr_line = "" then .obj []
  else
    match json_loads stderr_line with
    | some j => j
    | none => .obj []

/-- Embedding of `RhubarbParser.parse_status_infos`: falsy (empty) input
yields the empty dict `{}` — modelled as the empty sequence, which is how
every caller consumes it — and otherwise every line of `splitlines` is
parsed independently. -/
def parse_status_infos (stderr : String) : List Json :=
  if stderr = "" then []
  else (pySplitlines stderr).map parse_status_info_line

/-- Embedding of `RhubarbParser.parse_lipsync_json`: falsy input or a
`JSONDecodeError` yield the empty dict `{}`; otherwise the subscript
`j["mouthCues"]` is taken, whose `KeyError`/`TypeError` is not caught. -/
def parse_lipsync_json (stdout : String) : Except PyError Json :=
  if stdout = "" then .ok (.obj [])
  else
    match json_loads stdout with
    | none => .ok (.obj [])
    | some j => pySubscript j ("mouthCues")

end RhubarbParser

/-- State of the external rhubarb process and its pipes, as observable by the
driver: see the module docstring. -/
structure Proc where
  pollResult : Option Int
  pendingLines : List String
  atEof : Bool
  finalStdout : String
  finalStderr : String
  commTimesOut : Bool
deriving DecidableEq

/-- Embedding of the mutable state of `RhubarbCommandWrapper`.
`executable_errors` models the result of the filesystem preflight
`errors()` for the configured `executable_path`. -/
structure RhubarbCommandWrapper where
  executable_errors : Option String
  process : Option Proc
  stdout : String
  stderr : String
  last_exit_code : Option Int
deriving DecidableEq

/-- Outcome of one driver step: normal return with the updated driver state,
a raised Python exception (with the state at the raise), or an I/O block —
the step does not return until the external tool produces more output. -/
inductive StepResult (α : Type) where
  | ok (w : RhubarbCommandWrapper) (a : α)
  | raises (w : RhubarbCommandWrapper) (e : PyError)
  | blocks
deriving DecidableEq

/-- Sequencing of driver steps. -/
def StepResult.bind : StepResult α → (RhubarbCommandWrapper → α → StepResult β) → StepResult β
  | .ok w a, f => f w a
  | .raises w e, _ => .raises w e
  | .blocks, _ => .blocks

namespace RhubarbCommandWrapper

/-- Embedding of the `was_started` property: the process handle is set. -/
def was_started (w : RhubarbCommandWrapper) : Bool := w.process.isSome

/-- Embedding of the `has_finished` property: an exit code has been
recorded. -/
def has_finished (w : RhubarbCommandWrapper) : Bool := w.last_exit_code.isSome

/-- Embedding of `close_process`: `terminate()` is sent to a running process
(an effect on the external process only) and the handle is dropped. -/
def close_process (w : RhubarbCommandWrapper) : RhubarbCommandWrapper :=
  { w with process := none }

/-- Embedding of `open_process`: asserts no session is active and that the
preflight `errors()` found nothing, resets the output buffers and the exit
code, and installs the newly spawned process (`newProc` stands for the
`Popen(...)` result, whose behaviour the environment chooses). -/
def open_process (newProc : Proc) (w : RhubarbCommandWrapper) : StepResult Unit :=
  if w.was_started then .raises w .assertionError
  else if w.executable_errors.isSome then .raises w .assertionError
  else .ok { w with stdout := "", stderr := "", last_exit_code := none, process := some newProc } ()

/-- Embedding of `lipsync_start`: close any current process, then open the
new one (the argument-vector construction has no observable effect on the
driver state and is omitted). -/
def lipsync_start (newProc : Proc) (w : RhubarbCommandWrapper) : StepResult Unit :=
  open_process newProc (close_process w)

/-- Embedding of `collect_output_sync` with `ignore_timeout_error=True` (the
only form `read_process_stderr_line` uses): `communicate(timeout=1)` either
times out — which is only logged — or delivers the remaining output; the
process is closed either way. -/
def collect_output_sync_ignore (w : RhubarbCommandWrapper) : StepResult Unit :=
  match w.process with
  | none => .raises w .assertionError
  | some p =>
    if p.commTimesOut then .ok (close_process w) ()
    else
      .ok (close_process { w with stdout := w.stdout ++ p.finalStdout,
                                  stderr := w.stderr ++ p.finalStderr }) ()

/-- Embedding of `read_process_stderr_line`: asserts a session exists; a
finished session returns at once; otherwise the exit status is polled and
recorded. If the process exited, remaining output is drained and a non-zero
exit code raises; if it is still running, `next(self.process.stderr)` reads
one line — yielding a pending line, catching `StopIteration` at EOF, and
otherwise BLOCKING until the tool emits a full line. -/
def read_process_stderr_line (w : RhubarbCommandWrapper) : StepResult Unit :=
  match w.process with
  | none => .raises w .assertionError
  | some p =>
    if w.has_finished then .ok w ()
    else
      let w1 := { w with last_exit_code := p.pollResult }
      match p.pollResult with
      | some c =>
        (collect_output_sync_ignore w1).bind fun w2 _ =>
          if c ≠ 0 then .raises w2 (.runtimeError ("Rhubarb binary exited with a non-zero exit code"))
          else .ok w2 ()
      | none =>
        match p.pendingLines with
        | n :: rest =>
          .ok { w1 with stderr := w1.stderr ++ n, process := some { p with pendingLines := rest } } ()
        | [] => if p.atEof then .ok w1 () else .blocks

/-- Embedding of `log_status_line`: a falsy value or a dict without a
`"log"` key is skipped; otherwise the `level` and `message` subscripts are
evaluated and can raise, and the `LOG_LEVELS_MAP[level]` defaultdict lookup
raises `TypeError` on an unhashable level value; `keys()` on a truthy
non-dict raises `AttributeError`. -/
def log_status_line (j : Json) : Except PyError Unit :=
  if !j.truthy then .ok ()
  else
    match j with
    | .obj fields =>
      (match assocLookupStr fields ("log") with
       | none => .ok ()
       | some lj =>
         match pySubscript lj ("level") with
         | .error e => .error e
         | .ok level =>
           match pySubscript lj ("message") with
           | .error e => .error e
           | .ok _msg =>
             if level.pyHashable then .ok () else .error .typeError)
    | _ => .error .attributeError

/-- The dict comprehension `{j["type"]: j for j in status_lines if j}`,
processed left to right into the accumulator: falsy entries are skipped,
`j["type"]` may raise, and an unhashable key raises `TypeError`. -/
def buildByTypeAux (acc : List (Json × Json)) : List Json → Except PyError (List (Json × Json))
  | [] => .ok acc
  | j :: rest =>
    if j.truthy then
      match pySubscript j ("type") with
      | .error e => .error e
      | .ok k =>
        if k.pyHashable then buildByTypeAux (assocInsert acc k j) rest
        else .error .typeError
    else buildByTypeAux acc rest

/-- The dict `by_type` built by `lipsync_check_progress`. -/
def buildByType (status_lines : List Json) : Except PyError (List (Json × Json)) :=
  buildByTypeAux [] status_lines

/-- Python `v * 100` followed by `int(...)`, for a JSON-decoded `v`:
numbers multiply exactly and truncate toward zero; booleans act as 0/1;
a string is repeated 100 times and then parsed by `int()`; other types
raise `TypeError`. -/
def pyTimes100ToInt : Json → Except PyError Int
  | .num n d => .ok (py_int ((n : ℚ) / (d : ℚ) * 100))
  | .bool b => .ok (if b then 100 else 0)
  | .str s => pyIntOfString (pyRepeat s 100)
  | .null => .error .typeError
  | .arr _ => .error .typeError
  | .obj _ => .error .typeError

end RhubarbCommandWrapper

namespace RhubarbCommandWrapper

/-- The loop `for s in status_lines: self.log_status_line(s)`; the first
raising iteration propagates. -/
def log_status_lines : List Json → Except PyError Unit
  | [] => .ok ()
  | j :: rest =>
    match log_status_line j with
    | .error e => .error e
    | .ok () => log_status_lines rest

/-- Embedding of `lipsync_check_progress`: assert a session exists, clear
the stderr buffer, read one stderr line (which may block or raise), and then
interpret the parsed status lines: a `failure` event raises with its reason,
a `progress` event returns `int(value * 100)`, anything else returns
`None`. -/
def lipsync_check_progress (w : RhubarbCommandWrapper) : StepResult (Option Int) :=
  match w.process with
  | none => .raises w .assertionError
  | some _ =>
    let w0 := { w with stderr := "" }
    (read_process_stderr_line w0).bind fun w1 _ =>
      if w1.stderr = "" then .ok w1 none
      else
        let status_lines := RhubarbParser.parse_status_infos w1.stderr
        if status_lines.isEmpty then .ok w1 none
        else
          match log_status_lines status_lines with
          | .error e => .raises w1 e
          | .ok () =>
            match buildByType status_lines with
            | .error e => .raises w1 e
            | .ok by_type =>
              match assocLookup by_type (.str ("failure")) with
              | some fj =>
                (match pySubscript fj ("reason") with
                 | .error e => .raises w1 e
                 | .ok reason =>
                   .raises w1 (.runtimeError ("Rhubarb binary failed:\n" ++ pyStr reason)))
              | none =>
                match assocLookup by_type (.str ("progress")) with
                | none => .ok w1 none
                | some pj =>
                  match pySubscript pj ("value") with
                  | .error e => .raises w1 e
                  | .ok v =>
                    match pyTimes100ToInt v with
                    | .error e => .raises w1 e
                    | .ok i => .ok w1 (some i)

end RhubarbCommandWrapper

/-- A freshly spawned, still-running process that has not yet produced a
complete stderr line. -/
def procQuiet : Proc :=
  { pollResult := none, pendingLines := [], atEof := false,
    finalStdout := "", finalStderr := "", commTimesOut := false }

/-- A driver with a running but so far silent session. -/
def wRunningQuiet : RhubarbCommandWrapper :=
  { executable_errors := none, process := some procQuiet,
    stdout := "", stderr := "", last_exit_code := none }

/-- A driver that was never started. -/
def wIdle : RhubarbCommandWrapper :=
  { executable_errors := none, process := none,
    stdout := "", stderr := "", last_exit_code := none }

/-- C1, amended: `check_progress` is NOT non-blocking. When the process is
still running (`poll()` returns `None`), no complete stderr line is
available and the pipe is not at EOF, the `next(self.process.stderr)` call
inside `read_process_stderr_line` blocks until the external tool emits a
full line — the call does not return `None` immediately. (The source
comments acknowledge this: "This would eventually block.") -/
theorem C1_check_progress_blocks (w : RhubarbCommandWrapper) (p : Proc)
    (hp : w.process = some p) (hle : w.last_exit_code = none)
    (hpoll : p.pollResult = none) (hlines : p.pendingLines = [])
    (heof : p.atEof = false) :
    w.lipsync_check_progress = .blocks := by
  obtain ⟨ee, proc, so, se, le⟩ := w
  obtain ⟨pr, pl, eof, fo, fe, ct⟩ := p
  simp only at hp hle hpoll hlines heof
  subst hp hle hpoll hlines heof
  rfl

/-- C1, witness for the amended theorem at a concrete driver state. -/
theorem C1_witness : wRunningQuiet.lipsync_check_progress = .blocks :=
  C1_check_progress_blocks wRunningQuiet procQuiet rfl rfl rfl rfl rfl

/-- C1, counterexample to the claim as stated: at this concrete state the
process is running and no stderr line is available, yet `check_progress`
does not return `None` — it blocks on the stderr line read. -/
theorem C1_counterexample :
    wRunningQuiet.lipsync_check_progress = StepResult.blocks ∧
    StepResult.blocks ≠ StepResult.ok wRunningQuiet (none : Option Int) := by
  exact ⟨rfl, by simp⟩

/-- C2, amended: `lipsync_start` does NOT raise when a session is active.
It first calls `close_process` — silently terminating and discarding any
running session — so the `assert not self.was_started` inside
`open_process` always passes; the only remaining failure source is the
preflight `errors()`. With a clean preflight the launch always succeeds
and installs the new process. -/
theorem C2_lipsync_start_discards (w : RhubarbCommandWrapper) (p : Proc)
    (herr : w.executable_errors = none) :
    w.lipsync_start p =
      .ok { w with stdout := "", stderr := "", last_exit_code := none, process := some p } () := by
  obtain ⟨ee, proc, so, se, le⟩ := w
  simp only at herr
  subst herr
  rfl

/-- C2, witness for the amended theorem at a concrete running driver. -/
theorem C2_witness :
    wRunningQuiet.lipsync_start procQuiet =
      .ok { wRunningQuiet with
            stdout := "", stderr := "",
            last_exit_code := none, process := some procQuiet } () :=
  C2_lipsync_start_discards wRunningQuiet procQuiet rfl

/-- C2, counterexample to the claim as stated: this driver's session is
active (`was_started` is true), yet `lipsync_start` does not raise — it
returns normally, having silently replaced the running session. -/
theorem C2_counterexample :
    wRunningQuiet.was_started = true ∧
    wRunningQuiet.lipsync_start procQuiet =
      .ok { executable_errors := none, process := some procQuiet,
            stdout := "", stderr := "", last_exit_code := none } () :=
  ⟨rfl, rfl⟩

/-- C4, amended: `close_process` (the cancellation primitive) never raises
and always clears the process handle, and it is a no-op on an unstarted
driver; but it does NOT mark the session terminal: `has_finished` keeps
exactly its previous value, so cancelling a still-running session leaves
`has_finished` false (which is what the repository's own
`testLipsync_cancel` test asserts). -/
theorem C4_close_process_state (w : RhubarbCommandWrapper) :
    w.close_process.process = none ∧
    w.close_process.has_finished = w.has_finished ∧
    (w.was_started = false → w.close_process = w) := by
  refine ⟨rfl, rfl, fun h => ?_⟩
  obtain ⟨ee, proc, so, se, le⟩ := w
  cases proc with
  | none => rfl
  | some p => simp [RhubarbCommandWrapper.was_started] at h

/-- C4, witness for the amended theorem: on an unstarted driver the
cancellation is a strict no-op. -/
theorem C4_witness : wIdle.close_process = wIdle :=
  (C4_close_process_state wIdle).2.2 rfl

/-- C4, counterexample to the claim as stated: cancelling this running
(started, unfinished) session does not make `has_finished` true. -/
theorem C4_counterexample :
    wRunningQuiet.was_started = true ∧
    wRunningQuiet.close_process.has_finished = false :=
  ⟨rfl, rfl⟩

/-- C3, amended: when the next polled stderr line parses to a failure event
with reason `R`, `lipsync_check_progress` raises a `RuntimeError` whose
message is `"Rhubarb binary failed:\n" ++ R` (so it contains `R`), but
`has_finished` stays FALSE afterwards: the poll stored `None` as the exit
code and the raise happens before any exit code is ever recorded. -/
theorem C3_failure_raises_not_finished (w : RhubarbCommandWrapper) (p : Proc)
    (l R : String) (rest : List String)
    (hp : w.process = some p) (hle : w.last_exit_code = none)
    (hpoll : p.pollResult = none) (hlines : p.pendingLines = l :: rest)
    (hparse : RhubarbParser.parse_status_infos l =
      [Json.obj [("type", Json.str ("failure")), ("reason", Json.str R)]]) :
    w.lipsync_check_progress =
      .raises { w with
                stderr := l, last_exit_code := none,
                process := some { p with pendingLines := rest } }
        (.runtimeError ("Rhubarb binary failed:\n" ++ R)) ∧
    RhubarbCommandWrapper.has_finished
      { w with
        stderr := l, last_exit_code := none,
        process := some { p with pendingLines := rest } } = false := by
  have hl : l ≠ "" := by
    intro h
    rw [h] at hparse
    simp [RhubarbParser.parse_status_infos] at hparse
  obtain ⟨ee, proc, so, se, le⟩ := w
  obtain ⟨pr, pl, eof, fo, fe, ct⟩ := p
  simp only at hp hle hpoll hlines
  subst hp hle hpoll hlines
  refine ⟨?_, rfl⟩
  simp [RhubarbCommandWrapper.lipsync_check_progress,
    RhubarbCommandWrapper.read_process_stderr_line, RhubarbCommandWrapper.has_finished,
    StepResult.bind, empty_str_append, hparse, hl,
    RhubarbCommandWrapper.log_status_lines, RhubarbCommandWrapper.log_status_line,
    RhubarbCommandWrapper.buildByType, RhubarbCommandWrapper.buildByTypeAux,
    Json.truthy, Json.pyHashable, Json.pyEq, pySubscript, assocLookupStr, assocLookup,
    assocInsert, pyStr]

/-- The stderr line `{"type": "failure", "reason": "boom"}` as yielded by
the line iterator (trailing newline included). -/
def lFail : String := "\x7b\x22type\x22: \x22failure\x22, \x22reason\x22: \x22boom\x22\x7d\n"

/-- A running process whose next stderr line is the failure event. -/
def procFail : Proc :=
  { pollResult := none, pendingLines := [lFail], atEof := false,
    finalStdout := "", finalStderr := "", commTimesOut := false }

/-- A driver about to observe the failure event. -/
def wFail : RhubarbCommandWrapper :=
  { executable_errors := none, process := some procFail,
    stdout := "", stderr := "", last_exit_code := none }

/-- The driver state at the moment the failure is raised. -/
def wFailAfter : RhubarbCommandWrapper :=
  { executable_errors := none,
    process := some { procFail with pendingLines := [] },
    stdout := "", stderr := lFail, last_exit_code := none }

/-- C3, witness for the amended theorem at the concrete failure event. -/
theorem C3_witness :
    wFail.lipsync_check_progress =
      .raises wFailAfter (.runtimeError ("Rhubarb binary failed:\nboom")) :=
  (C3_failure_raises_not_finished wFail procFail lFail ("boom") []
    rfl rfl rfl rfl rfl).1

/-- C3, counterexample to the claim as stated: the failure raise does carry
the reason `"boom"` in its message, but afterwards `has_finished` is false,
not true — `poll()` recorded `None` and no exit code was ever stored. -/
theorem C3_counterexample :
    wFail.lipsync_check_progress =
      .raises wFailAfter (.runtimeError ("Rhubarb binary failed:\nboom")) ∧
    wFailAfter.has_finished = false :=
  ⟨rfl, rfl⟩

/-- C10: a polled progress event with exact value `q = n/d`, `0 ≤ q ≤ 1`,
makes `lipsync_check_progress` return `int(q * 100)`, which is the floor
(truncation toward zero of a non-negative value) of `q * 100`: an integer
in `0..100`, never rounded up, and equal to `100` exactly when `q = 1`. -/
theorem C10_progress_truncates (w : RhubarbCommandWrapper) (p : Proc)
    (l : String) (rest : List String) (n : Int) (d : Nat)
    (hp : w.process = some p) (hle : w.last_exit_code = none)
    (hpoll : p.pollResult = none) (hlines : p.pendingLines = l :: rest)
    (hparse : RhubarbParser.parse_status_infos l =
      [Json.obj [("type", Json.str ("progress")), ("value", Json.num n d)]])
    (h0 : 0 ≤ (n : ℚ) / (d : ℚ)) (h1 : (n : ℚ) / (d : ℚ) ≤ 1) :
    w.lipsync_check_progress =
      .ok { w with
            stderr := l, last_exit_code := none,
            process := some { p with pendingLines := rest } }
        (some ⌊(n : ℚ) / (d : ℚ) * 100⌋) ∧
    0 ≤ ⌊(n : ℚ) / (d : ℚ) * 100⌋ ∧ ⌊(n : ℚ) / (d : ℚ) * 100⌋ ≤ 100 ∧
    (⌊(n : ℚ) / (d : ℚ) * 100⌋ = 100 ↔ (n : ℚ) / (d : ℚ) = 1) := by
  have hl : l ≠ "" := by
    intro h
    rw [h] at hparse
    simp [RhubarbParser.parse_status_infos] at hparse
  have h100 : (0 : ℚ) ≤ (n : ℚ) / (d : ℚ) * 100 := by positivity
  have hfloor : py_int ((n : ℚ) / (d : ℚ) * 100) = ⌊(n : ℚ) / (d : ℚ) * 100⌋ := by
    rw [py_int, if_pos h100]
  constructor
  · obtain ⟨ee, proc, so, se, le⟩ := w
    obtain ⟨pr, pl, eof, fo, fe, ct⟩ := p
    simp only at hp hle hpoll hlines
    subst hp hle hpoll hlines
    simp [RhubarbCommandWrapper.lipsync_check_progress,
      RhubarbCommandWrapper.read_process_stderr_line, RhubarbCommandWrapper.has_finished,
      StepResult.bind, empty_str_append, hparse, hl, hfloor,
      RhubarbCommandWrapper.log_status_lines, RhubarbCommandWrapper.log_status_line,
      RhubarbCommandWrapper.buildByType, RhubarbCommandWrapper.buildByTypeAux,
      RhubarbCommandWrapper.pyTimes100ToInt,
      Json.truthy, Json.pyHashable, Json.pyEq, pySubscript, assocLookupStr, assocLookup,
      assocInsert, pyStr]
  refine ⟨Int.le_floor.mpr (by simpa using h100), ?_, ?_⟩
  · calc ⌊(n : ℚ) / (d : ℚ) * 100⌋ ≤ ⌊(100 : ℚ)⌋ := Int.floor_le_floor (by nlinarith)
    _ = 100 := by norm_num
  constructor
  · intro h
    have hge : (100 : ℚ) ≤ (n : ℚ) / (d : ℚ) * 100 := by
      have := Int.le_floor.mp h.ge
      simpa using this
    nlinarith
  · intro h
    rw [h]
    norm_num

/-- The stderr line `{"type": "progress", "value": 0.17}` as yielded by the
line iterator. -/
def lProgress : String := "\x7b\x22type\x22: \x22progress\x22, \x22value\x22: 0.17\x7d\n"

/-- A running process whose next stderr line is the progress event. -/
def procProgress : Proc :=
  { pollResult := none, pendingLines := [lProgress], atEof := false,
    finalStdout := "", finalStderr := "", commTimesOut := false }

/-- A driver about to observe the progress event. -/
def wProgress : RhubarbCommandWrapper :=
  { executable_errors := none, process := some procProgress,
    stdout := "", stderr := "", last_exit_code := none }

/-- C10, witness: the concrete `0.17` progress event is reported as the
truncated percentage. -/
theorem C10_witness :
    wProgress.lipsync_check_progress =
      .ok { wProgress with
            stderr := lProgress, last_exit_code := none,
            process := some { procProgress with pendingLines := [] } }
        (some ⌊((17 : Int) : ℚ) / ((100 : Nat) : ℚ) * 100⌋) :=
  (C10_progress_truncates wProgress procProgress lProgress [] 17 100
    rfl rfl rfl rfl rfl (by norm_num) (by norm_num)).1

example : (⌊((17 : Int) : ℚ) / ((100 : Nat) : ℚ) * 100⌋ : ℤ) = 17 := by norm_num

/-- C5, amended: `parse_lipsync_json` never raises on input that fails JSON
parsing — a `JSONDecodeError` (and falsy input) yields the empty dict — and
returns the `mouthCues` field when the document is an object carrying it.
It is NOT total on all inputs: a valid JSON document without that field
raises (see the counterexample). -/
theorem C5_parse_lipsync_json_behaviour :
    (∀ s : String, json_loads s = none →
      RhubarbParser.parse_lipsync_json s = .ok (Json.obj [])) ∧
    (∀ (s : String) (fields : List (String × Json)) (v : Json),
      json_loads s = some (.obj fields) →
      assocLookupStr fields ("mouthCues") = some v →
      RhubarbParser.parse_lipsync_json s = .ok v) := by
  constructor
  · intro s h
    rw [RhubarbParser.parse_lipsync_json]
    split_ifs with hs
    · rfl
    · rw [h]
  · intro s fields v hj hv
    have hs : s ≠ "" := by
      intro h
      rw [h] at hj
      exact Option.noConfusion hj
    rw [RhubarbParser.parse_lipsync_json, if_neg hs, hj]
    simp [pySubscript, hv]

/-- A stdout document with the expected shape. -/
def sGoodDoc : String :=
  "\x7b\x22mouthCues\x22: [\x7b\x22start\x22: 0.0, \x22end\x22: 0.28, \x22value\x22: \x22X\x22\x7d]\x7d"

/-- The cue array inside `sGoodDoc`, as decoded. -/
def goodCues : Json :=
  .arr [.obj [("start", .num 0 10), ("end", .num 28 100), ("value", .str ("X"))]]

/-- C5, witness: a malformed document yields the empty dict without raising,
and a well-formed document yields its cue array. -/
theorem C5_witness :
    RhubarbParser.parse_lipsync_json ("not json") = .ok (Json.obj []) ∧
    RhubarbParser.parse_lipsync_json sGoodDoc = .ok goodCues :=
  ⟨C5_parse_lipsync_json_behaviour.1 ("not json") rfl,
   C5_parse_lipsync_json_behaviour.2 sGoodDoc [("mouthCues", goodCues)] goodCues rfl rfl⟩

/-- C5, counterexample to the claim as stated: `"{}"` is a valid JSON
document lacking the cue array, and `parse_lipsync_json` raises a
`KeyError` on it instead of returning an empty sequence. -/
theorem C5_counterexample :
    json_loads ("\x7b\x7d") = some (Json.obj []) ∧
    RhubarbParser.parse_lipsync_json ("\x7b\x7d") = .error (.keyError ("mouthCues")) :=
  ⟨rfl, rfl⟩

/-- C6, amended: `parse_status_infos` never raises (it is total) and
returns exactly one mapping per line of `splitlines` — including EMPTY
lines, which contribute an empty mapping just like malformed lines do;
the count therefore matches the number of all lines, not the number of
non-empty lines. -/
theorem C6_parse_status_infos_per_line (s : String) :
    (RhubarbParser.parse_status_infos s).length = (pySplitlines s).length ∧
    ∀ l ∈ pySplitlines s, json_loads l = none →
      RhubarbParser.parse_status_info_line l = Json.obj [] := by
  refine ⟨?_, fun l _ hnone => ?_⟩
  · by_cases hs : s = ""
    · subst hs; rfl
    · rw [RhubarbParser.parse_status_infos, if_neg hs, List.length_map]
  · rw [RhubarbParser.parse_status_info_line]
    split_ifs with h
    · rfl
    · rw [hnone]

/-- A stderr text with one malformed line and one valid line. -/
def sMixed : String := "garbage\n\x7b\x7d"

/-- C6, witness: per-line counting and the empty mapping for a malformed
line, at a concrete two-line stderr text. -/
theorem C6_witness :
    (RhubarbParser.parse_status_infos sMixed).length = (pySplitlines sMixed).length ∧
    RhubarbParser.parse_status_info_line ("garbage") = Json.obj [] :=
  ⟨(C6_parse_status_infos_per_line sMixed).1,
   (C6_parse_status_infos_per_line sMixed).2 ("garbage")
     (by rw [show pySplitlines sMixed = ["garbage", "\x7b\x7d"] from rfl]
         exact List.mem_cons_self _ _)
     rfl⟩

/-- C6, counterexample to the claim as stated: the input `"\n"` has zero
non-empty lines, yet `parse_status_infos` returns one mapping (an empty
one for the empty line), so the count is per line, not per non-empty
line. -/
theorem C6_counterexample :
    (RhubarbParser.parse_status_infos ("\n")).length = 1 ∧
    ((pySplitlines ("\n")).filter (fun l => l != "")).length = 0 :=
  ⟨rfl, rfl⟩

/-- Frame-rate configuration: effective frame rate is `fps / fps_base`,
`offset` shifts frame 0. -/
structure FrameConfig where
  fps : ℚ
  fps_base : ℚ
  offset : ℚ
deriving DecidableEq

/-- Modelled from the spec: `time2frame_float` of the module
`mouth_cues.py`, which is not among the sources — seconds to frames at the
effective rate `fps / fps_base`. -/
def MouthCues.time2frame_float (t fps fps_base : ℚ) : ℚ := t * fps / fps_base

/-- Modelled from the spec: `frame2time` of the missing module
`mouth_cues.py` — frames back to seconds. -/
def MouthCues.frame2time (frame fps fps_base : ℚ) : ℚ := frame * fps_base / fps

/-- One detected mouth cue: `start`/`end` in seconds plus the shape key. -/
structure MouthCue where
  start : ℚ
  «end» : ℚ
  key : String
deriving DecidableEq

/-- The `duration` property of a cue. -/
def MouthCue.duration (c : MouthCue) : ℚ := c.«end» - c.start

/-- `MouthCueFrames`: a cue together with its assigned blend-in duration
(seconds). All frame-domain quantities are recomputed from the owned cue
and the frame config, mirroring the lazily derived properties. -/
structure MouthCueFrames where
  cue : MouthCue
  blend_in : ℚ
deriving DecidableEq

/-- Embedding of the `CueProcessor` dataclass state. -/
structure CueProcessor where
  frame_cfg : FrameConfig
  cue_frames : List MouthCueFrames
deriving DecidableEq

/-- Embedding of `CueProcessor.frame2time`: offset-shifted conversion. -/
def CueProcessor.frame2time (cfg : FrameConfig) (frame : ℚ) : ℚ :=
  MouthCues.frame2time (frame - cfg.offset) cfg.fps cfg.fps_base

/-- Embedding of `CueProcessor.time2frame_float`: offset-shifted
conversion. -/
def CueProcessor.time2frame_float (cfg : FrameConfig) (t : ℚ) : ℚ :=
  MouthCues.time2frame_float t cfg.fps cfg.fps_base + cfg.offset

/-- Modelled from the spec: `MouthCueFrames.start_frame_float` of the
missing `mouth_cues.py` — the cue start in frame units. -/
def start_frame_float (cfg : FrameConfig) (c : MouthCue) : ℚ :=
  CueProcessor.time2frame_float cfg c.start

/-- Modelled from the spec: `MouthCueFrames.end_frame_float` — the cue end
in frame units. -/
def end_frame_float (cfg : FrameConfig) (c : MouthCue) : ℚ :=
  CueProcessor.time2frame_float cfg c.«end»

/-- Modelled from the spec: `start_frame_left`, the frame at or before the
cue start. -/
def start_frame_left (cfg : FrameConfig) (c : MouthCue) : ℤ :=
  ⌊start_frame_float cfg c⌋

/-- Modelled from the spec: `start_frame_right`, the cue start rounded up
to a whole frame. -/
def start_frame_right (cfg : FrameConfig) (c : MouthCue) : ℤ :=
  ⌈start_frame_float cfg c⌉

/-- Modelled from the spec: `end_frame_left`, the frame at or before the
cue end. -/
def end_frame_left (cfg : FrameConfig) (c : MouthCue) : ℤ :=
  ⌊end_frame_float cfg c⌋

/-- Modelled from the spec: `end_frame_right`, the frame at or after the
cue end. -/
def end_frame_right (cfg : FrameConfig) (c : MouthCue) : ℤ :=
  ⌈end_frame_float cfg c⌉

/-- Modelled from the spec: `MouthCueFrames.intersects_frame` — the
half-open interval `[start, end)` covers at least one whole-frame
boundary: some integer frame `k` satisfies `start ≤ k < end` in frame
positions, which holds exactly when the start rounded up is strictly
below the end position. -/
def intersects_frame (cfg : FrameConfig) (c : MouthCue) : Prop :=
  (start_frame_right cfg c : ℚ) < end_frame_float cfg c

instance (cfg : FrameConfig) (c : MouthCue) : Decidable (intersects_frame cfg c) :=
  inferInstanceAs (Decidable (_ < _))

/-- Modelled from the spec: `MouthCueFrames.pre_start_float` — the cue
start minus its blend-in duration. -/
def pre_start_float (cf : MouthCueFrames) : ℚ := cf.cue.start - cf.blend_in

/-- One iteration of the `trim_long_cues` loop: the silence key `X` is
skipped, a cue within `max_dur` is skipped, an overlong cue gets its end
clamped to `start + max_dur`; the flag reports a modification. -/
def trim_one (max_dur : ℚ) (cf : MouthCueFrames) : MouthCueFrames × Bool :=
  if cf.cue.key = "X" then (cf, false)
  else if cf.cue.duration ≤ max_dur then (cf, false)
  else ({ cf with cue := { cf.cue with «end» := cf.cue.start + max_dur } }, true)

/-- The `trim_long_cues` loop over the cue list, returning the new list and
the number of modified cues. -/
def trim_long_cues_list (max_dur : ℚ) : List MouthCueFrames → List MouthCueFrames × Nat
  | [] => ([], 0)
  | cf :: rest =>
    let (cf', m) := trim_one max_dur cf
    let (rs, n) := trim_long_cues_list max_dur rest
    (cf' :: rs, (if m then 1 else 0) + n)

/-- Embedding of `CueProcessor.trim_long_cues`. -/
def CueProcessor.trim_long_cues (cp : CueProcessor) (max_dur : ℚ) : CueProcessor × Nat :=
  let (cs, n) := trim_long_cues_list max_dur cp.cue_frames
  ({ cp with cue_frames := cs }, n)

/-- One iteration of the `ensure_frame_intersection` loop: a frame-crossing
cue is skipped; otherwise the distances from the start down to its left
frame and from the right frame down to the end are asserted positive and
the closer side is expanded to its frame. -/
def ensure_one (cfg : FrameConfig) (cf : MouthCueFrames) : Except PyError (MouthCueFrames × Bool) :=
  if intersects_frame cfg cf.cue then .ok (cf, false)
  else
    let d_start := start_frame_float cfg cf.cue - (start_frame_left cfg cf.cue : ℚ)
    let d_end := (end_frame_right cfg cf.cue : ℚ) - end_frame_float cfg cf.cue
    if 0 < d_start ∧ 0 < d_end then
      if d_start < d_end then
        .ok ({ cf with cue :=
          { cf.cue with start := CueProcessor.frame2time cfg (start_frame_left cfg cf.cue : ℚ) } }, true)
      else
        .ok ({ cf with cue :=
          { cf.cue with «end» := CueProcessor.frame2time cfg (end_frame_right cfg cf.cue : ℚ) } }, true)
    else .error .assertionError

/-- The `ensure_frame_intersection` loop over the cue list. -/
def ensure_list (cfg : FrameConfig) : List MouthCueFrames → Except PyError (List MouthCueFrames × Nat)
  | [] => .ok ([], 0)
  | cf :: rest =>
    match ensure_one cfg cf with
    | .error e => .error e
    | .ok (cf', m) =>
      match ensure_list cfg rest with
      | .error e => .error e
      | .ok (rs, n) => .ok (cf' :: rs, (if m then 1 else 0) + n)

/-- Embedding of `CueProcessor.ensure_frame_intersection`. -/
def CueProcessor.ensure_frame_intersection (cp : CueProcessor) : Except PyError (CueProcessor × Nat) :=
  match ensure_list cp.frame_cfg cp.cue_frames with
  | .error e => .error e
  | .ok (cs, n) => .ok ({ cp with cue_frames := cs }, n)

/-- One iteration of the `round_ends_down` loop: a cue that crosses no
frame is skipped (only counted as skipped, which is merely logged); if
rounding the end down to `end_frame_left` would collide (within the 1e-4
epsilon) with the start rounded up, the cue is left alone; otherwise the
end is set to the frame time of `end_frame_left` and counted as
modified. -/
def round_ends_one (cfg : FrameConfig) (cf : MouthCueFrames) : MouthCueFrames × Bool :=
  if intersects_frame cfg cf.cue then
    if |(start_frame_right cfg cf.cue : ℚ) - (end_frame_left cfg cf.cue : ℚ)| < 1/10000 then
      (cf, false)
    else
      ({ cf with cue :=
        { cf.cue with «end» := CueProcessor.frame2time cfg (end_frame_left cfg cf.cue : ℚ) } }, true)
  else (cf, false)

/-- The `round_ends_down` loop over the cue list. -/
def round_list (cfg : FrameConfig) : List MouthCueFrames → List MouthCueFrames × Nat
  | [] => ([], 0)
  | cf :: rest =>
    let (cf', m) := round_ends_one cfg cf
    let (rs, n) := round_list cfg rest
    (cf' :: rs, (if m then 1 else 0) + n)

/-- Embedding of `CueProcessor.round_ends_down`. -/
def CueProcessor.round_ends_down (cp : CueProcessor) : CueProcessor × Nat :=
  let (cs, n) := round_list cp.frame_cfg cp.cue_frames
  ({ cp with cue_frames := cs }, n)

/-- The `set_blend_in_times` loop: each cue first receives the default
blend-in; from the second cue on, if its pre-start falls before the
tracked threshold `t`, the blend-in is shrunk by the deficit (asserting it
stays non-negative) and counted. The threshold update at the bottom of the
loop body is reached only by the first cue and by shrunk cues: the
`if d >= 0: continue` statement jumps straight to the next iteration and
SKIPS the `last_cue_start_frame_time = ...` assignment, so a cue that
needed no shrinking leaves the threshold stale. -/
def set_blend_aux (cfg : FrameConfig) (blend_in_time : ℚ) :
    Option ℚ → List MouthCueFrames → Except PyError (List MouthCueFrames × Nat)
  | _, [] => .ok ([], 0)
  | none, cf :: rest =>
    let cf1 := { cf with blend_in := blend_in_time }
    (match set_blend_aux cfg blend_in_time
        (some (CueProcessor.frame2time cfg (start_frame_right cfg cf1.cue : ℚ))) rest with
     | .error e => .error e
     | .ok (rs, n) => .ok (cf1 :: rs, n))
  | some t, cf :: rest =>
    let cf1 := { cf with blend_in := blend_in_time }
    let d := pre_start_float cf1 - t
    if 0 ≤ d then
      (match set_blend_aux cfg blend_in_time (some t) rest with
       | .error e => .error e
       | .ok (rs, n) => .ok (cf1 :: rs, n))
    else if blend_in_time + d < 0 then .error .assertionError
    else
      let cf2 := { cf1 with blend_in := blend_in_time + d }
      (match set_blend_aux cfg blend_in_time
          (some (CueProcessor.frame2time cfg (start_frame_right cfg cf2.cue : ℚ))) rest with
       | .error e => .error e
       | .ok (rs, n) => .ok (cf2 :: rs, n + 1))

/-- Embedding of `CueProcessor.set_blend_in_times`. -/
def CueProcessor.set_blend_in_times (cp : CueProcessor) (blend_in_time : ℚ) :
    Except PyError (CueProcessor × Nat) :=
  match set_blend_aux cp.frame_cfg blend_in_time none cp.cue_frames with
  | .error e => .error e
  | .ok (cs, n) => .ok ({ cp with cue_frames := cs }, n)

/-- Embedding of `CueProcessor.optimize_cues`: the four passes in order,
appending one report fragment per pass with a positive count. -/
def CueProcessor.optimize_cues (cp : CueProcessor) (min_cue_duration blend_in_time : ℚ) :
    Except PyError (CueProcessor × String) :=
  match cp.trim_long_cues min_cue_duration with
  | (cp1, n1) =>
    match cp1.ensure_frame_intersection with
    | .error e => .error e
    | .ok (cp2, n2) =>
      match cp2.round_ends_down with
      | (cp3, n3) =>
        match cp3.set_blend_in_times blend_in_time with
        | .error e => .error e
        | .ok (cp4, n4) =>
          .ok (cp4,
            (if 0 < n1 then " ends trimmed: " ++ toString n1 else "") ++
            (if 0 < n2 then " duration enlarged: " ++ toString n2 else "") ++
            (if 0 < n3 then " ends rounded to frame: " ++ toString n3 else "") ++
            (if 0 < n4 then " blend-in time shortened: " ++ toString n4 else ""))

/-- Ceiling as negated floor of the negation; lets `norm_num` evaluate
ceilings of concrete rationals. -/
theorem rat_ceil_neg_floor (x : ℚ) : ⌈x⌉ = -⌊-x⌋ := by
  rw [Int.floor_neg, neg_neg]

/-- C9, amended: for a cue with `end ≥ start` under positive `fps` and
`fps_base` whose half-open `[start, end)` interval crosses no whole-frame
boundary, both `d_start` and `d_end` computed inside
`ensure_frame_intersection` are strictly positive PROVIDED the cue end
does not itself sit exactly on a frame; when the end falls on a frame
(start strictly inside a frame interval), `d_end = 0` and the
`assert d_start > 0 and d_end > 0` fails — see `C9_counterexample`. -/
theorem C9_ensure_assert_holds (cfg : FrameConfig) (c : MouthCue)
    (hfps : 0 < cfg.fps) (hbase : 0 < cfg.fps_base) (hc : c.start ≤ c.«end»)
    (hni : ¬ intersects_frame cfg c)
    (hoff : ((end_frame_right cfg c : ℤ) : ℚ) ≠ end_frame_float cfg c) :
    0 < start_frame_float cfg c - (start_frame_left cfg c : ℚ) ∧
    0 < (end_frame_right cfg c : ℚ) - end_frame_float cfg c := by
  have hse : start_frame_float cfg c ≤ end_frame_float cfg c := by
    unfold start_frame_float end_frame_float CueProcessor.time2frame_float
      MouthCues.time2frame_float
    gcongr
  have hni' : end_frame_float cfg c ≤ ((⌈start_frame_float cfg c⌉ : ℤ) : ℚ) := by
    unfold intersects_frame start_frame_right at hni
    push_neg at hni
    exact hni
  have hde : end_frame_float cfg c < ((⌈end_frame_float cfg c⌉ : ℤ) : ℚ) := by
    rcases lt_or_eq_of_le (Int.le_ceil (end_frame_float cfg c)) with h | h
    · exact h
    · rw [end_frame_right] at hoff
      exact absurd h.symm hoff
  constructor
  · rw [start_frame_left, sub_pos]
    rcases lt_or_eq_of_le (Int.floor_le (start_frame_float cfg c)) with h | h
    · exact h
    · exfalso
      have hceq : ((⌈start_frame_float cfg c⌉ : ℤ) : ℚ) = start_frame_float cfg c := by
        conv_lhs => rw [← h]
        rw [Int.ceil_intCast, h]
      have hes : end_frame_float cfg c = start_frame_float cfg c :=
        le_antisymm (by linarith) hse
      have hcast : ((⌈end_frame_float cfg c⌉ : ℤ) : ℚ) = ((⌈start_frame_float cfg c⌉ : ℤ) : ℚ) := by
        rw [hes]
      linarith
  · rw [end_frame_right, sub_pos]
    exact hde

/-- A one-frame-per-second configuration used by concrete cue examples. -/
def cfgW9 : FrameConfig := { fps := 1, fps_base := 1, offset := 0 }

/-- A sub-frame cue strictly between two frame boundaries. -/
def cW9 : MouthCue := { start := 1/2, «end» := 3/5, key := "A" }

/-- C9, witness: the positivity of both distances at a concrete sub-frame
cue whose end is off-frame. -/
theorem C9_witness :
    0 < start_frame_float cfgW9 cW9 - (start_frame_left cfgW9 cW9 : ℚ) ∧
    0 < (end_frame_right cfgW9 cW9 : ℚ) - end_frame_float cfgW9 cW9 :=
  C9_ensure_assert_holds cfgW9 cW9 (by norm_num [cfgW9]) (by norm_num [cfgW9])
    (by norm_num [cW9])
    (by norm_num [intersects_frame, start_frame_right, start_frame_float,
        end_frame_float, CueProcessor.time2frame_float, MouthCues.time2frame_float,
        cfgW9, cW9, rat_ceil_neg_floor])
    (by norm_num [end_frame_right, end_frame_float, CueProcessor.time2frame_float,
        MouthCues.time2frame_float, cfgW9, cW9, rat_ceil_neg_floor])

/-- A cue starting strictly inside a frame interval and ending exactly on
the next frame boundary: its `[start, end)` contains no boundary. -/
def cBoundary : MouthCue := { start := 1/2, «end» := 1, key := "A" }

/-- C9, counterexample to the claim as stated: this cue satisfies the
claim's hypotheses — `end ≥ start` and no frame boundary inside
`[start, end)` — yet `d_end = ⌈1⌉ - 1 = 0`, so the assertion inside
`ensure_frame_intersection` fails (the embedded iteration returns the
assertion error). -/
theorem C9_counterexample :
    ¬ intersects_frame cfgW9 cBoundary ∧
    cBoundary.start ≤ cBoundary.«end» ∧
    ensure_one cfgW9 { cue := cBoundary, blend_in := 0 } = .error .assertionError := by
  refine ⟨?_, ?_, ?_⟩ <;>
    norm_num [ensure_one, intersects_frame, start_frame_right, start_frame_float,
      end_frame_float, start_frame_left, end_frame_right,
      CueProcessor.time2frame_float, MouthCues.time2frame_float,
      cfgW9, cBoundary, rat_ceil_neg_floor]

/-- The C8 invariant, phrased along the list: given the tracked threshold
`t` (none before the first cue), every cue starts no earlier than `t` once
its blend-in is subtracted. Mirroring the `continue` in the source, the
threshold advances to a cue's rounded-up start-frame time only for the
first cue and for cues whose blend-in was shrunk (those with
`start - b < t`); for any other cue it stays put. -/
def blend_chain_ok (cfg : FrameConfig) (b : ℚ) : Option ℚ → List MouthCueFrames → Prop
  | _, [] => True
  | none, cf :: rest =>
    blend_chain_ok cfg b
      (some (CueProcessor.frame2time cfg (start_frame_right cfg cf.cue : ℚ))) rest
  | some t, cf :: rest =>
    t ≤ cf.cue.start - cf.blend_in ∧
    blend_chain_ok cfg b
      (if 0 ≤ cf.cue.start - b - t then some t
       else some (CueProcessor.frame2time cfg (start_frame_right cfg cf.cue : ℚ))) rest

/-- Any successful run of the blend-in loop establishes the chain
invariant, whatever the incoming accumulator. -/
theorem set_blend_aux_chain (cfg : FrameConfig) (b : ℚ) :
    ∀ (cues : List MouthCueFrames) (last : Option ℚ) (cues' : List MouthCueFrames) (n : Nat),
      set_blend_aux cfg b last cues = .ok (cues', n) → blend_chain_ok cfg b last cues' := by
  intro cues
  induction cues with
  | nil =>
    intro last cues' n h
    cases last <;> simp [set_blend_aux] at h <;> rw [h.1] <;> trivial
  | cons cf rest ih =>
    intro last cues' n h
    cases last with
    | none =>
      simp only [set_blend_aux] at h
      cases hrec : set_blend_aux cfg b
          (some (CueProcessor.frame2time cfg (start_frame_right cfg cf.cue : ℚ))) rest with
      | error e => rw [hrec] at h; simp at h
      | ok p =>
        obtain ⟨rs, m⟩ := p
        rw [hrec] at h
        simp at h
        rw [← h.1]
        exact ih _ rs m hrec
    | some t =>
      simp only [set_blend_aux] at h
      by_cases hd : 0 ≤ pre_start_float { cf with blend_in := b } - t
      · rw [if_pos hd] at h
        cases hrec : set_blend_aux cfg b (some t) rest with
        | error e => rw [hrec] at h; simp at h
        | ok p =>
          obtain ⟨rs, m⟩ := p
          rw [hrec] at h
          simp at h
          rw [← h.1]
          have hd' : 0 ≤ cf.cue.start - b - t := hd
          constructor
          · show t ≤ cf.cue.start - b
            linarith
          · show blend_chain_ok cfg b
              (if 0 ≤ cf.cue.start - b - t then some t
               else some (CueProcessor.frame2time cfg (start_frame_right cfg cf.cue : ℚ))) rs
            rw [if_pos hd']
            exact ih _ rs m hrec
      · rw [if_neg hd] at h
        by_cases ha : b + (pre_start_float { cf with blend_in := b } - t) < 0
        · rw [if_pos ha] at h
          simp at h
        · rw [if_neg ha] at h
          cases hrec : set_blend_aux cfg b
              (some (CueProcessor.frame2time cfg (start_frame_right cfg cf.cue : ℚ))) rest with
          | error e => rw [hrec] at h; simp at h
          | ok p =>
            obtain ⟨rs, m⟩ := p
            rw [hrec] at h
            simp at h
            rw [← h.1]
            have hd' : ¬ 0 ≤ cf.cue.start - b - t := hd
            constructor
            · show t ≤ cf.cue.start - (b + (cf.cue.start - b - t))
              linarith
            · show blend_chain_ok cfg b
                (if 0 ≤ cf.cue.start - b - t then some t
                 else some (CueProcessor.frame2time cfg (start_frame_right cfg cf.cue : ℚ))) rs
              rw [if_neg hd']
              exact ih _ rs m hrec

/-- Starting from an empty accumulator (first cue), the head of the
resulting list carries exactly the default blend-in. -/
theorem set_blend_aux_none_head (cfg : FrameConfig) (b : ℚ)
    (cues cs : List MouthCueFrames) (m : Nat)
    (h : set_blend_aux cfg b none cues = .ok (cs, m)) :
    ∀ c r, cs = c :: r → c.blend_in = b := by
  cases cues with
  | nil =>
    simp [set_blend_aux] at h
    intro c r hc
    rw [h.1] at hc
    exact absurd hc (by simp)
  | cons cf rest =>
    simp only [set_blend_aux] at h
    cases hrec : set_blend_aux cfg b
        (some (CueProcessor.frame2time cfg (start_frame_right cfg cf.cue : ℚ))) rest with
    | error e => rw [hrec] at h; simp at h
    | ok p =>
      obtain ⟨rs, m'⟩ := p
      rw [hrec] at h
      simp at h
      intro c r hc
      rw [← h.1] at hc
      injection hc with hc1 hc2
      rw [← hc1]

/-- C8, amended: whenever the blend-in pass completes, the first cue
carries exactly the default blend-in, and every cue's `start - blend_in`
is at least the CURRENT tracked threshold: the rounded-up start-frame time
of the first cue or of the most recent cue whose blend-in was shrunk.
Because the source's `continue` skips the threshold update for cues that
need no shrinking, the threshold can be stale, and the original claim's
guarantee against the immediately previous cue fails â see
`C8_counterexample`. -/
theorem C8_blend_in_invariant (cp : CueProcessor) (b : ℚ) (cp' : CueProcessor) (n : Nat)
    (h : cp.set_blend_in_times b = .ok (cp', n)) :
    (∀ c r, cp'.cue_frames = c :: r → c.blend_in = b) ∧
    blend_chain_ok cp.frame_cfg b none cp'.cue_frames := by
  unfold CueProcessor.set_blend_in_times at h
  cases haux : set_blend_aux cp.frame_cfg b none cp.cue_frames with
  | error e => rw [haux] at h; simp at h
  | ok p =>
    obtain ⟨cs, m⟩ := p
    rw [haux] at h
    simp at h
    obtain ⟨h1, h2⟩ := h
    rw [← h1]
    exact ⟨set_blend_aux_none_head cp.frame_cfg b cp.cue_frames cs m haux,
           set_blend_aux_chain cp.frame_cfg b cp.cue_frames none cs m haux⟩

/-- Two cues whose second starts so close to the first frame of the first
cue that its blend-in must shrink. -/
def cpW8 : CueProcessor :=
  { frame_cfg := cfgW9,
    cue_frames := [{ cue := { start := 0, «end» := 1, key := "A" }, blend_in := 0 },
                   { cue := { start := 1/100, «end» := 2, key := "B" }, blend_in := 0 }] }

/-- The blend-in pass output on `cpW8`: default blend-in on the first cue,
shrunk blend-in on the second. -/
def cpW8out : CueProcessor :=
  { frame_cfg := cfgW9,
    cue_frames := [{ cue := { start := 0, «end» := 1, key := "A" }, blend_in := 1/50 },
                   { cue := { start := 1/100, «end» := 2, key := "B" }, blend_in := 1/100 }] }

/-- C8, witness: the chain invariant established on the concrete two-cue
run with one shrink. -/
theorem C8_witness : blend_chain_ok cpW8.frame_cfg (1/50) none cpW8out.cue_frames :=
  (C8_blend_in_invariant cpW8 (1/50) cpW8out 1
    (by norm_num [CueProcessor.set_blend_in_times, set_blend_aux, pre_start_float,
        start_frame_right, start_frame_float, CueProcessor.time2frame_float,
        MouthCues.time2frame_float, CueProcessor.frame2time, MouthCues.frame2time,
        cpW8, cpW8out, cfgW9, rat_ceil_neg_floor])).2

/-- Three cues at one frame per second: the second needs no shrinking, so
the `continue` leaves the threshold at the first cue's frame time; the
third then keeps its full default blend-in although it undercuts the
second cue's rounded-up start-frame time. -/
def cpC8bad : CueProcessor :=
  { frame_cfg := cfgW9,
    cue_frames := [{ cue := { start := 0, «end» := 1, key := "A" }, blend_in := 0 },
                   { cue := { start := 5, «end» := 6, key := "B" }, blend_in := 0 },
                   { cue := { start := 501/100, «end» := 7, key := "C" }, blend_in := 0 }] }

/-- The blend-in pass output on `cpC8bad`: nothing is shrunk. -/
def cpC8badOut : CueProcessor :=
  { frame_cfg := cfgW9,
    cue_frames := [{ cue := { start := 0, «end» := 1, key := "A" }, blend_in := 1/25 },
                   { cue := { start := 5, «end» := 6, key := "B" }, blend_in := 1/25 },
                   { cue := { start := 501/100, «end» := 7, key := "C" }, blend_in := 1/25 }] }

/-- C8, counterexample to the claim as stated: the pass completes with no
shrinking at all, yet the third cue's `start - blend_in`
(5.01 - 0.04 = 4.97) is strictly below the previous (second) cue's
rounded-up start-frame time (5) â the per-previous-cue invariant is
violated because the stale threshold still holds the first cue's frame
time 0. -/
theorem C8_counterexample :
    cpC8bad.set_blend_in_times (1/25) = .ok (cpC8badOut, 0) ∧
    (501/100 : ℚ) - 1/25 <
      CueProcessor.frame2time cfgW9
        (start_frame_right cfgW9 { start := 5, «end» := 6, key := "B" } : ℚ) := by
  constructor
  · norm_num [CueProcessor.set_blend_in_times, set_blend_aux, pre_start_float,
      start_frame_right, start_frame_float, CueProcessor.time2frame_float,
      MouthCues.time2frame_float, CueProcessor.frame2time, MouthCues.frame2time,
      cpC8bad, cpC8badOut, cfgW9, rat_ceil_neg_floor]
  · norm_num [CueProcessor.frame2time, MouthCues.frame2time, start_frame_right,
      start_frame_float, CueProcessor.time2frame_float, MouthCues.time2frame_float,
      cfgW9, rat_ceil_neg_floor]

/-- String append with an empty right operand is the identity. -/
theorem str_append_empty (s : String) : s ++ "" = s := by
  cases s with
  | mk d =>
    show String.mk (d ++ []) = String.mk d
    rw [List.append_nil]

/-- The frame-to-seconds conversion round-trips exactly through the
seconds-to-frame conversion when both rates are non-zero. -/
theorem frame_time_roundtrip (cfg : FrameConfig) (hfps : cfg.fps ≠ 0)
    (hbase : cfg.fps_base ≠ 0) (x : ℚ) :
    CueProcessor.time2frame_float cfg (CueProcessor.frame2time cfg x) = x := by
  unfold CueProcessor.time2frame_float CueProcessor.frame2time
    MouthCues.time2frame_float MouthCues.frame2time
  field_simp

/-- A cue whose end already sits on the frame `L` that still satisfies the
pass guards is a fixed point of one `round_ends_down` iteration (up to the
repeated modification flag). -/
theorem round_ends_one_fixed (cfg : FrameConfig) (hfps : cfg.fps ≠ 0)
    (hbase : cfg.fps_base ≠ 0) (cf2 : MouthCueFrames) (L : ℤ)
    (hend : cf2.cue.«end» = CueProcessor.frame2time cfg (L : ℚ))
    (hint : (start_frame_right cfg cf2.cue : ℚ) < (L : ℚ))
    (hgap : ¬ |(start_frame_right cfg cf2.cue : ℚ) - (L : ℚ)| < 1/10000) :
    round_ends_one cfg cf2 = (cf2, true) := by
  have hE : end_frame_float cfg cf2.cue = (L : ℚ) := by
    rw [end_frame_float, hend]
    exact frame_time_roundtrip cfg hfps hbase _
  have hEL : end_frame_left cfg cf2.cue = L := by
    rw [end_frame_left, hE, Int.floor_intCast]
  have hi2 : intersects_frame cfg cf2.cue := by
    rw [intersects_frame, hE]
    exact hint
  have he2 : ¬ |(start_frame_right cfg cf2.cue : ℚ) - (end_frame_left cfg cf2.cue : ℚ)| < 1/10000 := by
    rw [hEL]
    exact hgap
  unfold round_ends_one
  rw [if_pos hi2, if_neg he2, hEL]
  have hcue : { cf2.cue with «end» := CueProcessor.frame2time cfg (L : ℚ) } = cf2.cue := by
    rw [← hend]
  rw [hcue]

/-- One `round_ends_down` iteration is idempotent on the cue value (and
repeats the same modification flag): rounding an already-rounded end hits
the same frame again. -/
theorem round_ends_one_idem (cfg : FrameConfig) (hfps : 0 < cfg.fps)
    (hbase : 0 < cfg.fps_base) (cf : MouthCueFrames) :
    round_ends_one cfg (round_ends_one cfg cf).1 = round_ends_one cfg cf := by
  by_cases hi : intersects_frame cfg cf.cue
  · by_cases he : |(start_frame_right cfg cf.cue : ℚ) - (end_frame_left cfg cf.cue : ℚ)| < 1/10000
    · have h1 : round_ends_one cfg cf = (cf, false) := by
        unfold round_ends_one
        rw [if_pos hi, if_pos he]
      rw [h1]
      exact h1
    · have h1 : round_ends_one cfg cf =
          ({ cf with cue := { cf.cue with
              «end» := CueProcessor.frame2time cfg (end_frame_left cfg cf.cue : ℚ) } }, true) := by
        unfold round_ends_one
        rw [if_pos hi, if_neg he]
      rw [h1]
      have hle : start_frame_right cfg cf.cue ≤ end_frame_left cfg cf.cue :=
        Int.le_floor.mpr hi.le
      have hne : start_frame_right cfg cf.cue ≠ end_frame_left cfg cf.cue := by
        intro hEq
        apply he
        rw [hEq]
        norm_num
      refine round_ends_one_fixed cfg hfps.ne' hbase.ne' _ (end_frame_left cfg cf.cue) rfl ?_ ?_
      · show (start_frame_right cfg cf.cue : ℚ) < (end_frame_left cfg cf.cue : ℚ)
        exact_mod_cast lt_of_le_of_ne hle hne
      · show ¬ |(start_frame_right cfg cf.cue : ℚ) - (end_frame_left cfg cf.cue : ℚ)| < 1/10000
        exact he
  · have h1 : round_ends_one cfg cf = (cf, false) := by
      unfold round_ends_one
      rw [if_neg hi]
    rw [h1]
    exact h1

/-- Unfolding of the `round_ends_down` loop on a cons cell. -/
theorem round_list_cons (cfg : FrameConfig) (cf : MouthCueFrames) (rest : List MouthCueFrames) :
    round_list cfg (cf :: rest) =
      ((round_ends_one cfg cf).1 :: (round_list cfg rest).1,
       (if (round_ends_one cfg cf).2 then 1 else 0) + (round_list cfg rest).2) := rfl

/-- The `round_ends_down` loop is idempotent as a whole: re-running it on
its own output reproduces the output, including the modification count —
which therefore is NOT zero on the second run whenever it was not on the
first. -/
theorem round_list_idem (cfg : FrameConfig) (hfps : 0 < cfg.fps) (hbase : 0 < cfg.fps_base) :
    ∀ cues : List MouthCueFrames, round_list cfg (round_list cfg cues).1 = round_list cfg cues := by
  intro cues
  induction cues with
  | nil => rfl
  | cons cf rest ih =>
    simp only [round_list_cons]
    rw [round_ends_one_idem cfg hfps hbase cf, ih]

/-- C7, amended: the pipeline is idempotent on cue VALUES but not on the
reported counts: a second `round_ends_down` run reproduces its input (and
its count) exactly, because the loop increments its counter for every
frame-crossing cue it touches even when the rounded end equals the current
end. So a second `optimize` run modifies no values but reports the same
positive rounding count again rather than zero. -/
theorem C7_round_ends_down_idempotent (cp : CueProcessor)
    (hfps : 0 < cp.frame_cfg.fps) (hbase : 0 < cp.frame_cfg.fps_base) :
    (cp.round_ends_down.1).round_ends_down = cp.round_ends_down := by
  unfold CueProcessor.round_ends_down
  have h := round_list_idem cp.frame_cfg hfps hbase cp.cue_frames
  show ({ cp with cue_frames := (round_list cp.frame_cfg (round_list cp.frame_cfg cp.cue_frames).1).1 },
        (round_list cp.frame_cfg (round_list cp.frame_cfg cp.cue_frames).1).2) =
       ({ cp with cue_frames := (round_list cp.frame_cfg cp.cue_frames).1 },
        (round_list cp.frame_cfg cp.cue_frames).2)
  rw [h]

/-- Ten frames per second. -/
def cfgC7 : FrameConfig := { fps := 10, fps_base := 1, offset := 0 }

/-- One cue spanning exactly two frames, already frame-aligned. -/
def cpC7 : CueProcessor :=
  { frame_cfg := cfgC7,
    cue_frames := [{ cue := { start := 0, «end» := 1/5, key := "A" }, blend_in := 0 }] }

/-- `cpC7` after one full `optimize_cues` run: values unchanged except the
assigned blend-in. -/
def cpC7opt : CueProcessor :=
  { frame_cfg := cfgC7,
    cue_frames := [{ cue := { start := 0, «end» := 1/5, key := "A" }, blend_in := 1/50 }] }

/-- C7, witness: the amended round-pass idempotence at the concrete
processor. -/
theorem C7_witness : (cpC7.round_ends_down.1).round_ends_down = cpC7.round_ends_down :=
  C7_round_ends_down_idempotent cpC7 (by norm_num [cpC7, cfgC7]) (by norm_num [cpC7, cfgC7])

/-- C7, counterexample to the claim as stated: running `optimize_cues` a
second time immediately after a first run does NOT report zero
modifications for all four passes — the round-ends pass counts the (value
unchanged) rounding of the frame-crossing cue again, so both runs report
`ends rounded to frame: 1`. -/
theorem C7_counterexample :
    cpC7.optimize_cues (1/5) (1/50) =
      .ok (cpC7opt, " ends rounded to frame: " ++ toString (1 : Nat)) ∧
    cpC7opt.optimize_cues (1/5) (1/50) =
      .ok (cpC7opt, " ends rounded to frame: " ++ toString (1 : Nat)) ∧
    (" ends rounded to frame: " ++ toString (1 : Nat)) ≠ "" := by
  have t1 : cpC7.trim_long_cues (1/5) = (cpC7, 0) := by
    norm_num [CueProcessor.trim_long_cues, trim_long_cues_list, trim_one,
      MouthCue.duration, cpC7, cfgC7]
  have t2 : cpC7opt.trim_long_cues (1/5) = (cpC7opt, 0) := by
    norm_num [CueProcessor.trim_long_cues, trim_long_cues_list, trim_one,
      MouthCue.duration, cpC7opt, cfgC7]
  have e1 : cpC7.ensure_frame_intersection = .ok (cpC7, 0) := by
    norm_num [CueProcessor.ensure_frame_intersection, ensure_list, ensure_one,
      intersects_frame, start_frame_right, start_frame_float, end_frame_float,
      CueProcessor.time2frame_float, MouthCues.time2frame_float,
      cpC7, cfgC7, rat_ceil_neg_floor]
  have e2 : cpC7opt.ensure_frame_intersection = .ok (cpC7opt, 0) := by
    norm_num [CueProcessor.ensure_frame_intersection, ensure_list, ensure_one,
      intersects_frame, start_frame_right, start_frame_float, end_frame_float,
      CueProcessor.time2frame_float, MouthCues.time2frame_float,
      cpC7opt, cfgC7, rat_ceil_neg_floor]
  have r1 : cpC7.round_ends_down = (cpC7, 1) := by
    norm_num [CueProcessor.round_ends_down, round_list, round_ends_one,
      intersects_frame, start_frame_right, start_frame_float, end_frame_float,
      end_frame_left, CueProcessor.time2frame_float, MouthCues.time2frame_float,
      CueProcessor.frame2time, MouthCues.frame2time,
      cpC7, cfgC7, rat_ceil_neg_floor]
  have r2 : cpC7opt.round_ends_down = (cpC7opt, 1) := by
    norm_num [CueProcessor.round_ends_down, round_list, round_ends_one,
      intersects_frame, start_frame_right, start_frame_float, end_frame_float,
      end_frame_left, CueProcessor.time2frame_float, MouthCues.time2frame_float,
      CueProcessor.frame2time, MouthCues.frame2time,
      cpC7opt, cfgC7, rat_ceil_neg_floor]
  have b1 : cpC7.set_blend_in_times (1/50) = .ok (cpC7opt, 0) := by
    norm_num [CueProcessor.set_blend_in_times, set_blend_aux, pre_start_float,
      start_frame_right, start_frame_float, CueProcessor.time2frame_float,
      MouthCues.time2frame_float, CueProcessor.frame2time, MouthCues.frame2time,
      cpC7, cpC7opt, cfgC7, rat_ceil_neg_floor]
  have b2 : cpC7opt.set_blend_in_times (1/50) = .ok (cpC7opt, 0) := by
    norm_num [CueProcessor.set_blend_in_times, set_blend_aux, pre_start_float,
      start_frame_right, start_frame_float, CueProcessor.time2frame_float,
      MouthCues.time2frame_float, CueProcessor.frame2time, MouthCues.frame2time,
      cpC7opt, cfgC7, rat_ceil_neg_floor]
  refine ⟨?_, ?_, by decide⟩
  · unfold CueProcessor.optimize_cues
    rw [t1]
    dsimp only
    rw [e1]
    dsimp only
    rw [r1]
    dsimp only
    rw [b1]
    norm_num [empty_str_append, str_append_empty]
  · unfold CueProcessor.optimize_cues
    rw [t2]
    dsimp only
    rw [e2]
    dsimp only
    rw [r2]
    dsimp only
    rw [b2]
    norm_num [empty_str_append, str_append_empty]
